import Mathlib

/-!
Verification of `packages/driver/src/reflection/analyzeQuery.ts`: the
descriptor-to-TypeScript-signature walker (`walkCodec`), the cardinality
wrapper (`applyCardinalityToTsType`) and the query analyzer (`analyzeQuery`).

The descriptor (codec) object model and the `Cardinality` enum live in
collaborator modules (`../codecs/*`, `../ifaces`) that are not part of the
analyzed source; they are modelled from the specification's data model.
Thrown JS errors are embedded as `Except.error`, and the mutable shared
`Set<string>` of imports as an explicitly threaded deduplicating list.
-/

namespace AnalyzeQuery

/-- Modelled from the spec: `Cardinality` is a numeric enum with members
`ONE`, `AT_MOST_ONE`, `MANY`, `AT_LEAST_ONE` (further protocol members such
as `NO_RESULT` exist, which is why the wrapper needs a fatal default arm).
It is embedded as `Nat`; the concrete codes are the wire-protocol character
codes, only their distinctness matters. -/
abbrev Cardinality := Nat

def ONE : Cardinality := 0x41

def AT_MOST_ONE : Cardinality := 0x6f

def MANY : Cardinality := 0x6d

def AT_LEAST_ONE : Cardinality := 0x4d

def NO_RESULT : Cardinality := 0x6e

/-- Modelled from the spec: an `Object` field record `{name, cardinality}`. -/
structure Field where
  name : String
  cardinality : Cardinality
deriving DecidableEq, Repr

/-- Modelled from the spec: the descriptor (codec) tree. `EnumCodec` is a
subclass of `ScalarCodec` in the source, so every dispatch that tests
`instanceof ScalarCodec` (see `Codec.isScalar`) also matches `EnumCodec`. -/
inductive Codec where
  | NullCodec : Codec
  | ScalarCodec (tsType : String) (importedType : Bool) : Codec
  | EnumCodec (tsType : String) (importedType : Bool) (values : List String) : Codec
  | ObjectCodec (fields : List Field) (subs : List Codec) : Codec
  | NamedTupleCodec (names : List String) (subs : List Codec) : Codec
  | ArrayCodec (sub : Codec) : Codec
  | TupleCodec (subs : List Codec) : Codec
  | RangeCodec (sub : Codec) : Codec
  | MultiRangeCodec (sub : Codec) : Codec
  | SetCodec (sub : Codec) : Codec

/-- Modelled from the spec: `instanceof ScalarCodec` (true for plain scalars
and enums, since `EnumCodec extends ScalarCodec`). -/
def Codec.isScalar : Codec → Bool
  | .ScalarCodec _ _ => true
  | .EnumCodec _ _ _ => true
  | _ => false

/-- Modelled from the spec: `getKind()`, the kind tag of a codec, used only
by the walker's fatal default arm. -/
def Codec.getKind : Codec → String
  | .NullCodec => "scalar"
  | .ScalarCodec _ _ => "scalar"
  | .EnumCodec _ _ _ => "scalar"
  | .ObjectCodec _ _ => "object"
  | .NamedTupleCodec _ _ => "namedtuple"
  | .ArrayCodec _ => "array"
  | .TupleCodec _ => "tuple"
  | .RangeCodec _ => "range"
  | .MultiRangeCodec _ => "multirange"
  | .SetCodec _ => "set"

/-- The generation context threaded through the walk (`ctx` in the source).
The JS `Set<string>` of imports is embedded as a deduplicated list in
insertion order; since Lean is pure, the walk returns the updated list. -/
structure WalkCtx where
  indent : String
  optionalNulls : Bool
  readonly : Bool
  imports : List String
deriving DecidableEq, Repr

/-- `Set.prototype.add`: insert-only, deduplicating, insertion-ordered. -/
def setAdd (s : List String) (x : String) : List String :=
  if x ∈ s then s else s ++ [x]

/-- `JSON.stringify` on one character of a string value (the common escapes;
literal quoting is all the walker relies on). -/
def jsonEscapeChar (c : Char) : String :=
  if c = '"' then "\\\""
  else if c = '\\' then "\\\\"
  else if c = '\n' then "\\n"
  else if c = '\r' then "\\r"
  else if c = '\t' then "\\t"
  else String.singleton c

/-- `JSON.stringify` on a string value: double-quote and escape. -/
def jsonStringify (s : String) : String :=
  "\"" ++ String.join (s.data.map jsonEscapeChar) ++ "\""

/-- `applyCardinalityToTsType` (source lines 74–89): wrap a ts type string
according to a cardinality; unknown cardinalities throw. The source's
`switch` tests `MANY`, `ONE`, `AT_MOST_ONE`, `AT_LEAST_ONE` in that order
and falls through to `throw` otherwise. -/
def applyCardinalityToTsType (type : String) (cardinality : Cardinality) :
    Except String String :=
  if cardinality = MANY then .ok (type ++ "[]")
  else if cardinality = ONE then .ok type
  else if cardinality = AT_MOST_ONE then .ok (type ++ " | null")
  else if cardinality = AT_LEAST_ONE then
    .ok ("[(" ++ type ++ "), ...(" ++ type ++ ")[]]")
  else .error ("unexpected cardinality: " ++ toString cardinality)

theorem list_sizeOf_pos {α : Type _} [SizeOf α] (l : List α) : 0 < sizeOf l := by
  cases l <;> simp_arith

theorem codec_sizeOf_pos (c : Codec) : 0 < sizeOf c := by
  cases c <;> simp_arith

mutual

/-- `walkCodec` (source lines 94–171): recursive descent over the codec tree
producing a ts type signature; returns the signature together with the
updated imports accumulator. -/
def walkCodec (codec : Codec) (ctx : WalkCtx) : Except String (String × List String) :=
  match codec with
  | .NullCodec => .ok ("null", ctx.imports)
  | .EnumCodec _tsType _importedType values =>
      .ok ("(" ++ String.intercalate " | " (values.map jsonStringify) ++ ")",
        ctx.imports)
  | .ScalarCodec tsType importedType =>
      .ok (tsType, if importedType then setAdd ctx.imports tsType else ctx.imports)
  | .ObjectCodec fields subs => do
      let (lines, imps) ← walkFields fields subs ctx
      let objectShape :=
        "\x7b\n" ++ String.intercalate "\n" lines ++ "\n" ++ ctx.indent ++ "\x7d"
      .ok (if ctx.readonly then "Readonly<" ++ objectShape ++ ">" else objectShape,
        imps)
  | .NamedTupleCodec names subs => do
      let (lines, imps) ← walkFields (names.map fun name => ⟨name, ONE⟩) subs ctx
      let objectShape :=
        "\x7b\n" ++ String.intercalate "\n" lines ++ "\n" ++ ctx.indent ++ "\x7d"
      .ok (if ctx.readonly then "Readonly<" ++ objectShape ++ ">" else objectShape,
        imps)
  | .ArrayCodec sub => do
      let (s, imps) ← walkCodec sub ctx
      .ok ((if ctx.readonly then "readonly " else "") ++ s ++ "[]", imps)
  | .TupleCodec subs => do
      let (ss, imps) ← walkList subs ctx
      .ok ((if ctx.readonly then "readonly " else "") ++ "["
        ++ String.intercalate ", " ss ++ "]", imps)
  | .RangeCodec sub =>
      if sub.isScalar then do
        let (s, imps) ← walkCodec sub
          ⟨ctx.indent, ctx.optionalNulls, ctx.readonly, setAdd ctx.imports "Range"⟩
        .ok ("Range<" ++ s ++ ">", imps)
      else .error "expected range subtype to be scalar type"
  | .MultiRangeCodec sub =>
      if sub.isScalar then do
        let (s, imps) ← walkCodec sub
          ⟨ctx.indent, ctx.optionalNulls, ctx.readonly, setAdd ctx.imports "MultiRange"⟩
        .ok ("MultiRange<" ++ s ++ ">", imps)
      else .error "expected multirange subtype to be scalar type"
  | .SetCodec sub => .error ("Unexpected codec kind: " ++ (Codec.SetCodec sub).getKind)
termination_by sizeOf codec
decreasing_by
  all_goals simp_wf
  all_goals first
    | omega
    | (have h1 := list_sizeOf_pos fields; omega)
    | (have h2 := list_sizeOf_pos names; omega)

/-- The field loop of the `Object`/`NamedTuple` arm (source lines 121–139):
walks fields positionally against subcodecs, unwrapping a `SetCodec` child
when the field cardinality is multi-valued and throwing otherwise. Returns
the rendered field lines (joined with newlines by the caller) and the
updated imports. -/
def walkFields (fields : List Field) (subs : List Codec) (ctx : WalkCtx) :
    Except String (List String × List String) :=
  match fields, subs with
  | [], _ => .ok ([], ctx.imports)
  | _ :: _, [] => .error "missing subcodec for field"
  | field :: fs, .SetCodec inner :: ss =>
      if field.cardinality = MANY ∨ field.cardinality = AT_LEAST_ONE then
        walkField field fs inner ss ctx
      else .error "subcodec is SetCodec, but upper cardinality is one"
  | field :: fs, sub :: ss => walkField field fs sub ss ctx
termination_by sizeOf subs + 1
decreasing_by all_goals simp_wf <;> omega

/-- Renders one field (with its possibly set-unwrapped subcodec) and recurses
on the remaining fields (source lines 132–137). -/
def walkField (field : Field) (fs : List Field) (subCodec : Codec)
    (ss : List Codec) (ctx : WalkCtx) : Except String (List String × List String) := do
  let (s, imps) ← walkCodec subCodec
    ⟨ctx.indent ++ "  ", ctx.optionalNulls, ctx.readonly, ctx.imports⟩
  let wrapped ← applyCardinalityToTsType s field.cardinality
  let line := ctx.indent ++ "  " ++ jsonStringify field.name ++
    (if ctx.optionalNulls && field.cardinality = AT_MOST_ONE then "?" else "") ++
    ": " ++ wrapped ++ ";"
  let (rest, imps2) ← walkFields fs ss
    ⟨ctx.indent, ctx.optionalNulls, ctx.readonly, imps⟩
  .ok (line :: rest, imps2)
termination_by sizeOf subCodec + sizeOf ss + 1
decreasing_by
  all_goals simp_wf
  all_goals first
    | omega
    | (have h1 := codec_sizeOf_pos subCodec; omega)

/-- The subcodec loop of the `Tuple` arm (source lines 149–152): walks each
child with the unchanged context, threading the imports accumulator. -/
def walkList (subs : List Codec) (ctx : WalkCtx) :
    Except String (List String × List String) :=
  match subs with
  | [] => .ok ([], ctx.imports)
  | sub :: ss => do
      let (s, imps) ← walkCodec sub ctx
      let (rest, imps2) ← walkList ss
        ⟨ctx.indent, ctx.optionalNulls, ctx.readonly, imps⟩
      .ok (s :: rest, imps2)
termination_by sizeOf subs
decreasing_by all_goals simp_wf <;> omega

end

/-- The analyzer's result record (`QueryType` in the source). -/
structure QueryType where
  args : String
  result : String
  cardinality : Cardinality
  query : String
  imports : List String
deriving DecidableEq, Repr

/-- `analyzeQuery` (source lines 24–55), starting after the negotiation
collaborator `parseQuery` has produced `(cardinality, inCodec, outCodec)`:
walks the input codec with `{optionalNulls: true, readonly: true}` and a
fresh imports accumulator, walks the output codec with
`{optionalNulls: false, readonly: false}` sharing the same accumulator, and
wraps the output type with the top-level cardinality. -/
def analyzeQuery (cardinality : Cardinality) (inCodec outCodec : Codec)
    (query : String) : Except String QueryType := do
  let (args, imports1) ← walkCodec inCodec ⟨"", true, true, []⟩
  let (result0, imports2) ← walkCodec outCodec ⟨"", false, false, imports1⟩
  let result ← applyCardinalityToTsType result0 cardinality
  .ok ⟨args, result, cardinality, query, imports2⟩

/-- `instanceof SetCodec`. -/
def Codec.isSet : Codec → Bool
  | .SetCodec _ => true
  | _ => false

@[simp]
theorem exceptBind_ok {ε α β : Type _} (a : α) (f : α → Except ε β) :
    (Except.ok a : Except ε α) >>= f = f a := rfl

@[simp]
theorem exceptBind_error {ε α β : Type _} (e : ε) (f : α → Except ε β) :
    (Except.error e : Except ε α) >>= f = Except.error e := rfl

theorem intercalate_nil (sep : String) : String.intercalate sep [] = "" := rfl

theorem intercalate_singleton (sep x : String) : String.intercalate sep [x] = x := rfl

theorem mem_setAdd_self (s : List String) (x : String) : x ∈ setAdd s x := by
  unfold setAdd
  split
  · assumption
  · simp

theorem mem_setAdd_of_mem {s : List String} {x : String} (y : String) (h : x ∈ s) :
    x ∈ setAdd s y := by
  unfold setAdd
  split
  · exact h
  · simp [h]

/-- Insert-only deduplicating accumulator invariant: going from `pre` to
`post`, existing entries are never removed (post extends pre) and
deduplication is preserved. -/
def importsOk (pre post : List String) : Prop :=
  (∃ extra, post = pre ++ extra) ∧ (pre.Nodup → post.Nodup)

theorem importsOk_refl (pre : List String) : importsOk pre pre :=
  ⟨⟨[], by simp⟩, fun h => h⟩

theorem importsOk_setAdd (pre : List String) (x : String) :
    importsOk pre (setAdd pre x) := by
  constructor
  · unfold setAdd
    split
    · exact ⟨[], by simp⟩
    · exact ⟨[x], rfl⟩
  · intro h
    unfold setAdd
    split
    · exact h
    · rename_i hx
      simp [List.nodup_append, h, hx]

theorem importsOk_trans {a b c : List String} (h1 : importsOk a b)
    (h2 : importsOk b c) : importsOk a c := by
  obtain ⟨⟨e1, he1⟩, hn1⟩ := h1
  obtain ⟨⟨e2, he2⟩, hn2⟩ := h2
  exact ⟨⟨e1 ++ e2, by simp [he2, he1]⟩, fun h => hn2 (hn1 h)⟩

/-- The non-`SetCodec` arm of the field loop: when the subcodec is not a
`SetCodec`, the field is rendered directly. -/
theorem walkFields_cons_not_set (f : Field) (fs : List Field) (sub : Codec)
    (ss : List Codec) (ctx : WalkCtx) (h : sub.isSet = false) :
    walkFields (f :: fs) (sub :: ss) ctx = walkField f fs sub ss ctx := by
  cases sub <;> simp_all [walkFields, Codec.isSet]

/-- The `SetCodec` arm of the field loop: the declared cardinality is checked
and the set is unwrapped. -/
theorem walkFields_cons_set (f : Field) (fs : List Field) (inner : Codec)
    (ss : List Codec) (ctx : WalkCtx) :
    walkFields (f :: fs) (.SetCodec inner :: ss) ctx =
      if f.cardinality = MANY ∨ f.cardinality = AT_LEAST_ONE then
        walkField f fs inner ss ctx
      else .error "subcodec is SetCodec, but upper cardinality is one" := by
  simp [walkFields]

/-- Claim C3: the cardinality wrapper returns `T` for `ONE`, `T ++ "[]"` for
`MANY`, `T ++ " | null"` for `AT_MOST_ONE`,
`"[(" ++ T ++ "), ...(" ++ T ++ ")[]]"` for `AT_LEAST_ONE`, and raises a
fatal unexpected-cardinality error on any other cardinality value. -/
theorem claimC3 (T : String) :
    applyCardinalityToTsType T ONE = .ok T ∧
    applyCardinalityToTsType T MANY = .ok (T ++ "[]") ∧
    applyCardinalityToTsType T AT_MOST_ONE = .ok (T ++ " | null") ∧
    applyCardinalityToTsType T AT_LEAST_ONE =
      .ok ("[(" ++ T ++ "), ...(" ++ T ++ ")[]]") ∧
    ∀ c : Cardinality, c ≠ ONE → c ≠ MANY → c ≠ AT_MOST_ONE → c ≠ AT_LEAST_ONE →
      applyCardinalityToTsType T c =
        .error ("unexpected cardinality: " ++ toString c) := by
  refine ⟨?_, ?_, ?_, ?_, ?_⟩
  · simp [applyCardinalityToTsType, ONE, MANY]
  · simp [applyCardinalityToTsType]
  · simp [applyCardinalityToTsType, AT_MOST_ONE, MANY, ONE]
  · simp [applyCardinalityToTsType, AT_LEAST_ONE, MANY, ONE, AT_MOST_ONE]
  · intro c h1 h2 h3 h4
    simp [applyCardinalityToTsType, h1, h2, h3, h4]

/-- Witness for C3 at `T = "string"` and, for the fatal arm, at the protocol
cardinality `NO_RESULT`. -/
theorem claimC3_witness :
    applyCardinalityToTsType "string" ONE = .ok "string" ∧
    applyCardinalityToTsType "string" MANY = .ok "string[]" ∧
    applyCardinalityToTsType "string" AT_MOST_ONE = .ok "string | null" ∧
    applyCardinalityToTsType "string" AT_LEAST_ONE =
      .ok "[(string), ...(string)[]]" ∧
    applyCardinalityToTsType "string" NO_RESULT =
      .error ("unexpected cardinality: " ++ toString NO_RESULT) := by
  have h := claimC3 "string"
  exact ⟨h.1, h.2.1, h.2.2.1, h.2.2.2.1,
    h.2.2.2.2 NO_RESULT (by decide) (by decide) (by decide) (by decide)⟩

/-- Claim C7: an enum scalar walks to a parenthesized `" | "`-joined union of
its literal values, each rendered with `JSON.stringify`, in declared order;
the result is independent of the context flags and leaves the imports
accumulator untouched. -/
theorem claimC7 :
    (∀ (t : String) (imp : Bool) (vs : List String) (ctx : WalkCtx),
      walkCodec (.EnumCodec t imp vs) ctx =
        .ok ("(" ++ String.intercalate " | " (vs.map jsonStringify) ++ ")",
          ctx.imports)) ∧
    walkCodec (.EnumCodec "test::Genre" false ["a", "b"]) ⟨"", false, false, []⟩ =
      .ok ("(\"a\" | \"b\")", []) := by
  constructor
  · intro t imp vs ctx
    simp [walkCodec]
  · simp [walkCodec, jsonStringify, jsonEscapeChar]
    all_goals decide

/-- Claim C9: the walker has no dispatch arm for `SetCodec` itself: walking a
`SetCodec` directly (top level, under `Array`/`Tuple`, or the inner set of a
nested set-under-set exposed by the single field-level unwrap) is always the
fatal unexpected-codec-kind error. -/
theorem claimC9 :
    (∀ (sub : Codec) (ctx : WalkCtx),
      walkCodec (.SetCodec sub) ctx = .error "Unexpected codec kind: set") ∧
    walkCodec (.ObjectCodec [⟨"a", MANY⟩]
        [.SetCodec (.SetCodec (.ScalarCodec "string" false))])
        ⟨"", false, false, []⟩ = .error "Unexpected codec kind: set" ∧
    walkCodec (.ArrayCodec (.SetCodec (.ScalarCodec "string" false)))
        ⟨"", false, false, []⟩ = .error "Unexpected codec kind: set" ∧
    walkCodec (.TupleCodec [.SetCodec (.ScalarCodec "string" false)])
        ⟨"", false, false, []⟩ = .error "Unexpected codec kind: set" := by
  refine ⟨?_, ?_, ?_, ?_⟩
  · intro sub ctx
    simp [walkCodec, Codec.getKind]
  · simp [walkCodec, walkFields, walkField, walkList, Codec.getKind, MANY,
      AT_LEAST_ONE]
  · simp [walkCodec, Codec.getKind]
  · simp [walkCodec, walkList, Codec.getKind]

/-- Claim C10: the enum arm of the scalar dispatch returns before the
`importedType` check, so an enum's ts type name is never registered in the
imports accumulator, even with `importedType = true`; registration only
happens for non-enum plain scalars. -/
theorem claimC10 :
    (∀ (t : String) (vs : List String) (ctx : WalkCtx),
      ∃ s, walkCodec (.EnumCodec t true vs) ctx = .ok (s, ctx.imports)) ∧
    (∀ (t : String) (ctx : WalkCtx),
      walkCodec (.ScalarCodec t true) ctx = .ok (t, setAdd ctx.imports t)) ∧
    walkCodec (.EnumCodec "Rng" true ["a"]) ⟨"", false, false, []⟩ =
      .ok ("(\"a\")", []) := by
  refine ⟨?_, ?_, ?_⟩
  · intro t vs ctx
    exact ⟨"(" ++ String.intercalate " | " (vs.map jsonStringify) ++ ")",
      by simp [walkCodec]⟩
  · intro t ctx
    simp [walkCodec]
  · simp [walkCodec, jsonStringify, jsonEscapeChar]
    all_goals decide

/-- Counterexample to C1 as stated: with `optionalNulls = true` and a field
of cardinality `AT_MOST_ONE`, the walker marks the key optional (`"a"?`) but
still applies the cardinality wrapper with the field cardinality, so the
value type keeps the `" | null"` union; the claimed null-free value type is
not produced. -/
theorem claimC1_counterexample :
    walkCodec (.ObjectCodec [⟨"a", AT_MOST_ONE⟩] [.ScalarCodec "string" false])
        ⟨"", true, false, []⟩ =
      .ok ("\x7b\n  \"a\"?: string | null;\n\x7d", []) ∧
    ("\x7b\n  \"a\"?: string | null;\n\x7d" : String) ≠
      "\x7b\n  \"a\"?: string;\n\x7d" := by
  constructor
  · simp [walkCodec, walkFields, walkField, applyCardinalityToTsType,
      jsonStringify, jsonEscapeChar, AT_MOST_ONE, MANY, ONE]
    all_goals decide
  · decide

/-- Claim C1 (amended): for an `Object` field of cardinality `AT_MOST_ONE`
walked with `optionalNulls = true`, the key is rendered optional
(`name` followed by `?`) but the cardinality wrapper is still applied
unconditionally, so the value type is the child signature WITH the
`" | null"` union appended; only the key, not the value type, reflects the
`optionalNulls` flag. Stated for the field renderer at any position and for
a one-field object. -/
theorem claimC1 :
    (∀ (field : Field) (fs : List Field) (subCodec : Codec) (ss : List Codec)
        (ctx : WalkCtx) (s : String) (imps : List String),
      ctx.optionalNulls = true →
      field.cardinality = AT_MOST_ONE →
      walkCodec subCodec ⟨ctx.indent ++ "  ", ctx.optionalNulls, ctx.readonly,
        ctx.imports⟩ = .ok (s, imps) →
      walkField field fs subCodec ss ctx =
        (walkFields fs ss ⟨ctx.indent, ctx.optionalNulls, ctx.readonly,
          imps⟩).map (fun p =>
            ((ctx.indent ++ "  " ++ jsonStringify field.name ++ "?: " ++ s
              ++ " | null;") :: p.1, p.2))) ∧
    (∀ (name : String) (sub : Codec) (ctx : WalkCtx) (s : String)
        (imps : List String),
      sub.isSet = false →
      ctx.optionalNulls = true →
      walkCodec sub ⟨ctx.indent ++ "  ", ctx.optionalNulls, ctx.readonly,
        ctx.imports⟩ = .ok (s, imps) →
      walkCodec (.ObjectCodec [⟨name, AT_MOST_ONE⟩] [sub]) ctx =
        .ok ((if ctx.readonly then
            "Readonly<" ++ ("\x7b\n" ++ (ctx.indent ++ "  " ++ jsonStringify name
              ++ "?: " ++ s ++ " | null;") ++ "\n" ++ ctx.indent ++ "\x7d") ++ ">"
          else "\x7b\n" ++ (ctx.indent ++ "  " ++ jsonStringify name ++ "?: "
            ++ s ++ " | null;") ++ "\n" ++ ctx.indent ++ "\x7d", imps))) := by
  have hfield : ∀ (field : Field) (fs : List Field) (subCodec : Codec)
      (ss : List Codec) (ctx : WalkCtx) (s : String) (imps : List String),
      ctx.optionalNulls = true →
      field.cardinality = AT_MOST_ONE →
      walkCodec subCodec ⟨ctx.indent ++ "  ", ctx.optionalNulls, ctx.readonly,
        ctx.imports⟩ = .ok (s, imps) →
      walkField field fs subCodec ss ctx =
        (walkFields fs ss ⟨ctx.indent, ctx.optionalNulls, ctx.readonly,
          imps⟩).map (fun p =>
            ((ctx.indent ++ "  " ++ jsonStringify field.name ++ "?: " ++ s
              ++ " | null;") :: p.1, p.2)) := by
    intro field fs subCodec ss ctx s imps hon hcard hw
    rw [walkField.eq_def, hw, hon]
    cases hrest : walkFields fs ss
        ⟨ctx.indent, true, ctx.readonly, imps⟩ <;>
      simp [hrest, applyCardinalityToTsType, hcard, AT_MOST_ONE, MANY,
        ONE, Except.map, String.append_assoc]
  constructor
  · exact hfield
  · intro name sub ctx s imps hset hon hw
    have h1 : walkFields [⟨name, AT_MOST_ONE⟩] [sub] ctx =
        walkField ⟨name, AT_MOST_ONE⟩ [] sub [] ctx :=
      walkFields_cons_not_set _ _ _ _ _ hset
    have h2 := hfield ⟨name, AT_MOST_ONE⟩ [] sub [] ctx s imps hon rfl hw
    rw [walkCodec.eq_def]
    simp only [h1, h2, walkFields, Except.map, exceptBind_ok,
      intercalate_singleton]

/-- Witness for the amended C1 at a concrete field (`"a"`, `AT_MOST_ONE`,
child scalar `string`) under `optionalNulls = true`; the rendered line keeps
the null-union next to the optional key, and the one-field object with
`readonly = true` additionally wraps the record. -/
theorem claimC1_witness :
    walkField ⟨"a", AT_MOST_ONE⟩ [] (.ScalarCodec "string" false) []
        ⟨"", true, false, []⟩ =
      (walkFields [] [] ⟨"", true, false, []⟩).map (fun p =>
        (("" ++ "  " ++ jsonStringify "a" ++ "?: " ++ "string"
          ++ " | null;") :: p.1, p.2)) ∧
    walkCodec (.ObjectCodec [⟨"a", AT_MOST_ONE⟩] [.ScalarCodec "string" false])
        ⟨"", true, true, []⟩ =
      .ok ((if (true : Bool) then
          "Readonly<" ++ ("\x7b\n" ++ "" ++ "  " ++ jsonStringify "a"
            ++ "?: " ++ "string" ++ " | null;" ++ "\n" ++ "" ++ "\x7d") ++ ">"
        else "\x7b\n" ++ "" ++ "  " ++ jsonStringify "a" ++ "?: " ++ "string"
          ++ " | null;" ++ "\n" ++ "" ++ "\x7d", [])) := by
  constructor
  · exact claimC1.1 ⟨"a", AT_MOST_ONE⟩ [] (.ScalarCodec "string" false) []
      ⟨"", true, false, []⟩ "string" [] rfl rfl (by simp [walkCodec])
  · exact claimC1.2 "a" (.ScalarCodec "string" false) ⟨"", true, true, []⟩
      "string" [] rfl rfl (by simp [walkCodec])

/-- Claim C2: `analyzeQuery` produces `argsType` as the walk of the input
codec under `{optionalNulls: true, readonly: true}` with no top-level
wrapper, and `resultType` as the cardinality wrapper applied with the
top-level cardinality to the walk of the output codec under
`{optionalNulls: false, readonly: false}`; the two walks share one imports
accumulator (the output walk starts from the input walk's result). -/
theorem claimC2 (card : Cardinality) (inC outC : Codec) (q a b r : String)
    (i1 i2 : List String)
    (h1 : walkCodec inC ⟨"", true, true, []⟩ = .ok (a, i1))
    (h2 : walkCodec outC ⟨"", false, false, i1⟩ = .ok (b, i2))
    (h3 : applyCardinalityToTsType b card = .ok r) :
    analyzeQuery card inC outC q = .ok ⟨a, r, card, q, i2⟩ := by
  simp [analyzeQuery, h1, h2, h3]

/-- Witness for C2: the spec's end-to-end example — top-level cardinality
`AT_MOST_ONE` with scalar output `number` gives `resultType = number | null`
(and the null input codec gives `argsType = null`). -/
theorem claimC2_witness :
    analyzeQuery AT_MOST_ONE .NullCodec (.ScalarCodec "number" false)
        "select x" =
      .ok ⟨"null", "number | null", AT_MOST_ONE, "select x", []⟩ :=
  claimC2 AT_MOST_ONE .NullCodec (.ScalarCodec "number" false) "select x"
    "null" "number" "number | null" [] [] (by simp [walkCodec])
    (by simp [walkCodec])
    (by simp [applyCardinalityToTsType, AT_MOST_ONE, MANY, ONE])

/-- Claim C4: a `SetCodec` paired with an `Object`/`NamedTuple` field is
fatal exactly when the field cardinality is neither `MANY` nor
`AT_LEAST_ONE`; with a multi-valued cardinality the set is unwrapped to its
single child before recursing and the field renders without error (the
wrapper then applies the field cardinality to the child signature).
`NamedTuple` fields are synthesized with cardinality `ONE`, so a set child
there is always fatal. -/
theorem claimC4 :
    (∀ (ctx : WalkCtx) (name : String) (card : Cardinality) (inner : Codec),
      ¬(card = MANY ∨ card = AT_LEAST_ONE) →
      walkCodec (.ObjectCodec [⟨name, card⟩] [.SetCodec inner]) ctx =
        .error "subcodec is SetCodec, but upper cardinality is one") ∧
    (∀ (ctx : WalkCtx) (name : String) (card : Cardinality) (inner : Codec)
        (s : String) (i : List String),
      (card = MANY ∨ card = AT_LEAST_ONE) →
      walkCodec inner ⟨ctx.indent ++ "  ", ctx.optionalNulls, ctx.readonly,
        ctx.imports⟩ = .ok (s, i) →
      walkCodec (.ObjectCodec [⟨name, card⟩] [.SetCodec inner]) ctx =
        .ok ((if ctx.readonly then
            "Readonly<" ++ ("\x7b\n" ++ (ctx.indent ++ "  " ++ jsonStringify name
              ++ ": " ++ (if card = MANY then s ++ "[]"
                else "[(" ++ s ++ "), ...(" ++ s ++ ")[]]") ++ ";") ++ "\n"
              ++ ctx.indent ++ "\x7d") ++ ">"
          else "\x7b\n" ++ (ctx.indent ++ "  " ++ jsonStringify name ++ ": "
            ++ (if card = MANY then s ++ "[]"
              else "[(" ++ s ++ "), ...(" ++ s ++ ")[]]") ++ ";") ++ "\n"
            ++ ctx.indent ++ "\x7d", i))) ∧
    (∀ (ctx : WalkCtx) (name : String) (inner : Codec),
      walkCodec (.NamedTupleCodec [name] [.SetCodec inner]) ctx =
        .error "subcodec is SetCodec, but upper cardinality is one") := by
  refine ⟨?_, ?_, ?_⟩
  · intro ctx name card inner hcard
    rw [walkCodec.eq_def]
    simp only [walkFields_cons_set]
    simp [hcard]
  · intro ctx name card inner s i hcard hw
    rw [walkCodec.eq_def]
    simp only [walkFields_cons_set, if_pos hcard]
    rw [walkField.eq_def, hw]
    rcases hcard with hm | hal
    · subst hm
      simp only [walkFields, applyCardinalityToTsType, exceptBind_ok,
        Except.map]
      simp [MANY, AT_MOST_ONE, intercalate_singleton]
    · subst hal
      simp only [walkFields, applyCardinalityToTsType, exceptBind_ok,
        Except.map]
      simp [AT_LEAST_ONE, MANY, ONE, AT_MOST_ONE, intercalate_singleton]
  · intro ctx name inner
    rw [walkCodec.eq_def]
    simp only [List.map_cons, List.map_nil, walkFields_cons_set]
    simp [ONE, MANY, AT_LEAST_ONE]

/-- Witness for C4: with field cardinality `ONE` a set child is fatal; with
field cardinality `MANY` (the spec's `tags` example: `Set` wrapping scalar
`string` under `optionalNulls = false`) the set is unwrapped and the field
renders as `string[]` with no optional marker. -/
theorem claimC4_witness :
    walkCodec (.ObjectCodec [⟨"a", ONE⟩] [.SetCodec (.ScalarCodec "string" false)])
        ⟨"", false, false, []⟩ =
      .error "subcodec is SetCodec, but upper cardinality is one" ∧
    walkCodec (.ObjectCodec [⟨"tags", MANY⟩]
        [.SetCodec (.ScalarCodec "string" false)]) ⟨"", false, false, []⟩ =
      .ok ((if (false : Bool) then
          "Readonly<" ++ ("\x7b\n" ++ ("" ++ "  " ++ jsonStringify "tags"
            ++ ": " ++ (if MANY = MANY then "string" ++ "[]"
              else "[(" ++ "string" ++ "), ...(" ++ "string" ++ ")[]]") ++ ";")
            ++ "\n" ++ "" ++ "\x7d") ++ ">"
        else "\x7b\n" ++ ("" ++ "  " ++ jsonStringify "tags" ++ ": "
          ++ (if MANY = MANY then "string" ++ "[]"
            else "[(" ++ "string" ++ "), ...(" ++ "string" ++ ")[]]") ++ ";")
          ++ "\n" ++ "" ++ "\x7d", [])) := by
  constructor
  · exact claimC4.1 ⟨"", false, false, []⟩ "a" ONE (.ScalarCodec "string" false)
      (by decide)
  · exact claimC4.2.1 ⟨"", false, false, []⟩ "tags" MANY
      (.ScalarCodec "string" false) "string" [] (Or.inl rfl)
      (by simp [walkCodec])

/-- Claim C5: a `Range` (resp. `MultiRange`) whose single child is not a
scalar codec is the fatal range/non-scalar (resp. multirange/non-scalar)
error; with a scalar child, `"Range"` (resp. `"MultiRange"`) is registered
in the imports accumulator and the signature is `Range<child>` (resp.
`MultiRange<child>`). -/
theorem claimC5 :
    (∀ (ctx : WalkCtx) (sub : Codec), sub.isScalar = false →
      walkCodec (.RangeCodec sub) ctx =
        .error "expected range subtype to be scalar type") ∧
    (∀ (ctx : WalkCtx) (sub : Codec), sub.isScalar = true →
      ∃ s i, walkCodec sub ⟨ctx.indent, ctx.optionalNulls, ctx.readonly,
          setAdd ctx.imports "Range"⟩ = .ok (s, i) ∧
        walkCodec (.RangeCodec sub) ctx = .ok ("Range<" ++ s ++ ">", i) ∧
        "Range" ∈ i) ∧
    (∀ (ctx : WalkCtx) (sub : Codec), sub.isScalar = false →
      walkCodec (.MultiRangeCodec sub) ctx =
        .error "expected multirange subtype to be scalar type") ∧
    (∀ (ctx : WalkCtx) (sub : Codec), sub.isScalar = true →
      ∃ s i, walkCodec sub ⟨ctx.indent, ctx.optionalNulls, ctx.readonly,
          setAdd ctx.imports "MultiRange"⟩ = .ok (s, i) ∧
        walkCodec (.MultiRangeCodec sub) ctx =
          .ok ("MultiRange<" ++ s ++ ">", i) ∧
        "MultiRange" ∈ i) := by
  refine ⟨?_, ?_, ?_, ?_⟩
  · intro ctx sub hs
    rw [walkCodec.eq_def]
    simp [hs]
  · intro ctx sub hs
    cases sub with
    | ScalarCodec t imp =>
        cases imp with
        | false =>
            exact ⟨t, setAdd ctx.imports "Range", by simp [walkCodec],
              by simp [walkCodec, Codec.isScalar], mem_setAdd_self _ _⟩
        | true =>
            exact ⟨t, setAdd (setAdd ctx.imports "Range") t,
              by simp [walkCodec],
              by simp [walkCodec, Codec.isScalar],
              mem_setAdd_of_mem _ (mem_setAdd_self _ _)⟩
    | EnumCodec t imp vs =>
        exact ⟨"(" ++ String.intercalate " | " (vs.map jsonStringify) ++ ")",
          setAdd ctx.imports "Range", by simp [walkCodec],
          by simp [walkCodec, Codec.isScalar], mem_setAdd_self _ _⟩
    | NullCodec => simp [Codec.isScalar] at hs
    | ObjectCodec fields subs => simp [Codec.isScalar] at hs
    | NamedTupleCodec names subs => simp [Codec.isScalar] at hs
    | ArrayCodec c => simp [Codec.isScalar] at hs
    | TupleCodec subs => simp [Codec.isScalar] at hs
    | RangeCodec c => simp [Codec.isScalar] at hs
    | MultiRangeCodec c => simp [Codec.isScalar] at hs
    | SetCodec c => simp [Codec.isScalar] at hs
  · intro ctx sub hs
    rw [walkCodec.eq_def]
    simp [hs]
  · intro ctx sub hs
    cases sub with
    | ScalarCodec t imp =>
        cases imp with
        | false =>
            exact ⟨t, setAdd ctx.imports "MultiRange", by simp [walkCodec],
              by simp [walkCodec, Codec.isScalar], mem_setAdd_self _ _⟩
        | true =>
            exact ⟨t, setAdd (setAdd ctx.imports "MultiRange") t,
              by simp [walkCodec],
              by simp [walkCodec, Codec.isScalar],
              mem_setAdd_of_mem _ (mem_setAdd_self _ _)⟩
    | EnumCodec t imp vs =>
        exact ⟨"(" ++ String.intercalate " | " (vs.map jsonStringify) ++ ")",
          setAdd ctx.imports "MultiRange", by simp [walkCodec],
          by simp [walkCodec, Codec.isScalar], mem_setAdd_self _ _⟩
    | NullCodec => simp [Codec.isScalar] at hs
    | ObjectCodec fields subs => simp [Codec.isScalar] at hs
    | NamedTupleCodec names subs => simp [Codec.isScalar] at hs
    | ArrayCodec c => simp [Codec.isScalar] at hs
    | TupleCodec subs => simp [Codec.isScalar] at hs
    | RangeCodec c => simp [Codec.isScalar] at hs
    | MultiRangeCodec c => simp [Codec.isScalar] at hs
    | SetCodec c => simp [Codec.isScalar] at hs

/-- Witness for C5: a `Range` whose child is an `Object` is the fatal
range/non-scalar error, and a `Range` over scalar `number` registers
`"Range"` and renders `Range<number>`. -/
theorem claimC5_witness :
    walkCodec (.RangeCodec (.ObjectCodec [] [])) ⟨"", false, false, []⟩ =
      .error "expected range subtype to be scalar type" ∧
    (∃ s i, walkCodec (.ScalarCodec "number" false)
        ⟨"", false, false, setAdd [] "Range"⟩ = .ok (s, i) ∧
      walkCodec (.RangeCodec (.ScalarCodec "number" false))
          ⟨"", false, false, []⟩ = .ok ("Range<" ++ s ++ ">", i) ∧
      "Range" ∈ i) := by
  constructor
  · exact claimC5.1 ⟨"", false, false, []⟩ (.ObjectCodec [] []) rfl
  · exact claimC5.2.1 ⟨"", false, false, []⟩ (.ScalarCodec "number" false) rfl

/-- Claim C8: under a context with `readonly = true`, the record produced by
an `Object`/`NamedTuple` is wrapped `Readonly<...>`, and `Array`/`Tuple`
signatures are prefixed `readonly `; each equation holds for every context
(hence at every nesting level, since recursive calls pass the flags
unchanged), and a concrete nested example shows the marking is deep. -/
theorem claimC8 :
    (∀ (sub : Codec) (ctx : WalkCtx), ctx.readonly = true →
      walkCodec (.ArrayCodec sub) ctx =
        (walkCodec sub ctx).map (fun p => ("readonly " ++ p.1 ++ "[]", p.2))) ∧
    (∀ (subs : List Codec) (ctx : WalkCtx), ctx.readonly = true →
      walkCodec (.TupleCodec subs) ctx =
        (walkList subs ctx).map (fun p =>
          ("readonly " ++ "[" ++ String.intercalate ", " p.1 ++ "]", p.2))) ∧
    (∀ (fields : List Field) (subs : List Codec) (ctx : WalkCtx),
      ctx.readonly = true →
      walkCodec (.ObjectCodec fields subs) ctx =
        (walkFields fields subs ctx).map (fun p =>
          ("Readonly<" ++ ("\x7b\n" ++ String.intercalate "\n" p.1 ++ "\n"
            ++ ctx.indent ++ "\x7d") ++ ">", p.2))) ∧
    (∀ (names : List String) (subs : List Codec) (ctx : WalkCtx),
      ctx.readonly = true →
      walkCodec (.NamedTupleCodec names subs) ctx =
        (walkFields (names.map fun n => ⟨n, ONE⟩) subs ctx).map (fun p =>
          ("Readonly<" ++ ("\x7b\n" ++ String.intercalate "\n" p.1 ++ "\n"
            ++ ctx.indent ++ "\x7d") ++ ">", p.2))) ∧
    walkCodec (.ObjectCodec [⟨"a", ONE⟩]
        [.ArrayCodec (.ScalarCodec "string" false)]) ⟨"", true, true, []⟩ =
      .ok ("Readonly<\x7b\n  \"a\": readonly string[];\n\x7d>", []) := by
  refine ⟨?_, ?_, ?_, ?_, ?_⟩
  · intro sub ctx hro
    rw [walkCodec.eq_def]
    cases hw : walkCodec sub ctx <;> simp [hw, hro, Except.map]
  · intro subs ctx hro
    rw [walkCodec.eq_def]
    cases hw : walkList subs ctx <;> simp [hw, hro, Except.map]
  · intro fields subs ctx hro
    rw [walkCodec.eq_def]
    cases hw : walkFields fields subs ctx <;> simp [hw, hro, Except.map]
  · intro names subs ctx hro
    rw [walkCodec.eq_def]
    cases hw : walkFields (names.map fun n => ⟨n, ONE⟩) subs ctx <;>
      simp [hw, hro, Except.map]
  · simp [walkCodec, walkFields, walkField, applyCardinalityToTsType,
      jsonStringify, jsonEscapeChar, ONE, MANY, intercalate_singleton]
    all_goals decide

/-- Witness for C8: the `Array` equation applied at a concrete readonly
context and scalar child. -/
theorem claimC8_witness :
    walkCodec (.ArrayCodec (.ScalarCodec "string" false)) ⟨"", false, true, []⟩ =
      (walkCodec (.ScalarCodec "string" false) ⟨"", false, true, []⟩).map
        (fun p => ("readonly " ++ p.1 ++ "[]", p.2)) :=
  claimC8.1 (.ScalarCodec "string" false) ⟨"", false, true, []⟩ rfl

/-- Insert-only growth and dedup preservation of the imports accumulator
across a whole walk, proved by the walker's functional induction. -/
theorem walk_imports_mono :
    ∀ (codec : Codec) (ctx : WalkCtx) (s : String) (i : List String),
      walkCodec codec ctx = .ok (s, i) → importsOk ctx.imports i := by
  refine walkCodec.induct
    (fun codec ctx => ∀ s i, walkCodec codec ctx = .ok (s, i) →
      importsOk ctx.imports i)
    (fun subs ctx => ∀ ls i, walkList subs ctx = .ok (ls, i) →
      importsOk ctx.imports i)
    (fun fields subs ctx => ∀ ls i, walkFields fields subs ctx = .ok (ls, i) →
      importsOk ctx.imports i)
    (fun field fs subCodec ss ctx => ∀ ls i,
      walkField field fs subCodec ss ctx = .ok (ls, i) →
      importsOk ctx.imports i)
    ?_ ?_ ?_ ?_ ?_ ?_ ?_ ?_ ?_ ?_ ?_ ?_ ?_ ?_ ?_ ?_ ?_ ?_ ?_ ?_
  · intro ctx s i h
    simp [walkCodec] at h
    obtain ⟨rfl, rfl⟩ := h
    exact importsOk_refl _
  · intro ctx t imp vs s i h
    simp [walkCodec] at h
    obtain ⟨rfl, rfl⟩ := h
    exact importsOk_refl _
  · intro ctx t imp s i h
    cases imp <;> simp [walkCodec] at h <;> obtain ⟨rfl, rfl⟩ := h
    · exact importsOk_refl _
    · exact importsOk_setAdd _ _
  · intro ctx fields subs ih s i h
    simp only [walkCodec] at h
    cases hf : walkFields fields subs ctx with
    | error e => simp [hf] at h
    | ok p =>
        obtain ⟨lines, imps⟩ := p
        simp [hf] at h
        obtain ⟨rfl, rfl⟩ := h
        exact ih _ _ hf
  · intro ctx names subs ih s i h
    simp only [walkCodec] at h
    cases hf : walkFields (names.map fun name => ⟨name, ONE⟩) subs ctx with
    | error e => simp [hf] at h
    | ok p =>
        obtain ⟨lines, imps⟩ := p
        simp [hf] at h
        obtain ⟨rfl, rfl⟩ := h
        exact ih _ _ hf
  · intro ctx sub ih s i h
    simp only [walkCodec] at h
    cases hw : walkCodec sub ctx with
    | error e => simp [hw] at h
    | ok p =>
        obtain ⟨s1, imps⟩ := p
        simp [hw] at h
        obtain ⟨rfl, rfl⟩ := h
        exact ih _ _ hw
  · intro ctx subs ih s i h
    simp only [walkCodec] at h
    cases hw : walkList subs ctx with
    | error e => simp [hw] at h
    | ok p =>
        obtain ⟨ls, imps⟩ := p
        simp [hw] at h
        obtain ⟨rfl, rfl⟩ := h
        exact ih _ _ hw
  · intro ctx sub hs ih s i h
    simp only [walkCodec, hs, if_true] at h
    cases hw : walkCodec sub
        ⟨ctx.indent, ctx.optionalNulls, ctx.readonly,
          setAdd ctx.imports "Range"⟩ with
    | error e => simp [hw] at h
    | ok p =>
        obtain ⟨s1, imps⟩ := p
        simp [hw] at h
        obtain ⟨rfl, rfl⟩ := h
        exact importsOk_trans (importsOk_setAdd _ _) (ih _ _ hw)
  · intro ctx sub hns s i h
    simp [walkCodec, hns] at h
  · intro ctx sub hs ih s i h
    simp only [walkCodec, hs, if_true] at h
    cases hw : walkCodec sub
        ⟨ctx.indent, ctx.optionalNulls, ctx.readonly,
          setAdd ctx.imports "MultiRange"⟩ with
    | error e => simp [hw] at h
    | ok p =>
        obtain ⟨s1, imps⟩ := p
        simp [hw] at h
        obtain ⟨rfl, rfl⟩ := h
        exact importsOk_trans (importsOk_setAdd _ _) (ih _ _ hw)
  · intro ctx sub hns s i h
    simp [walkCodec, hns] at h
  · intro ctx sub s i h
    simp [walkCodec] at h
  · intro ctx ls i h
    simp [walkList] at h
    obtain ⟨rfl, rfl⟩ := h
    exact importsOk_refl _
  · intro ctx sub ss ih1 ih2 ls i h
    simp only [walkList] at h
    cases hw : walkCodec sub ctx with
    | error e => simp [hw] at h
    | ok p =>
        obtain ⟨s1, imps⟩ := p
        simp only [hw, exceptBind_ok] at h
        cases hrest : walkList ss
            ⟨ctx.indent, ctx.optionalNulls, ctx.readonly, imps⟩ with
        | error e => simp [hrest] at h
        | ok q =>
            obtain ⟨rest, i2⟩ := q
            simp [hrest] at h
            obtain ⟨rfl, rfl⟩ := h
            exact importsOk_trans (ih1 s1 imps hw) (ih2 imps rest i2 hrest)
  · intro subs ctx ls i h
    simp [walkFields] at h
    obtain ⟨rfl, rfl⟩ := h
    exact importsOk_refl _
  · intro ctx f fs ls i h
    simp [walkFields] at h
  · intro ctx field fs inner ss hcard ih ls i h
    rw [walkFields_cons_set, if_pos hcard] at h
    exact ih ls i h
  · intro ctx field fs inner ss hncard ls i h
    rw [walkFields_cons_set, if_neg hncard] at h
    simp at h
  · intro ctx field fs sub ss hno ih ls i h
    have hset : sub.isSet = false := by
      cases sub <;> simp [Codec.isSet]
      exact hno _ rfl
    rw [walkFields_cons_not_set _ _ _ _ _ hset] at h
    exact ih ls i h
  · intro field fs subCodec ss ctx ih1 ih2 ls i h
    rw [walkField.eq_def] at h
    cases hw : walkCodec subCodec
        ⟨ctx.indent ++ "  ", ctx.optionalNulls, ctx.readonly,
          ctx.imports⟩ with
    | error e => simp [hw] at h
    | ok p =>
        obtain ⟨s1, imps⟩ := p
        simp only [hw, exceptBind_ok] at h
        cases happ : applyCardinalityToTsType s1 field.cardinality with
        | error e => simp [happ] at h
        | ok w =>
            simp only [happ, exceptBind_ok] at h
            cases hrest : walkFields fs ss
                ⟨ctx.indent, ctx.optionalNulls, ctx.readonly, imps⟩ with
            | error e => simp [hrest] at h
            | ok q =>
                obtain ⟨rest, i2⟩ := q
                simp [hrest] at h
                obtain ⟨rfl, rfl⟩ := h
                exact importsOk_trans (ih1 s1 imps hw)
                  (ih2 imps rest i2 hrest)

/-- Claim C6: both walks of one analyzer invocation write into one shared
insert-only deduplicating imports accumulator: a walk only appends to the
accumulator it is given (no removal), it preserves dedup, the analyzer's
returned imports are dedup-free, and a type name registered once in the
args walk and once in the result walk appears exactly once. -/
theorem claimC6 :
    (∀ (codec : Codec) (ctx : WalkCtx) (s : String) (i : List String),
      walkCodec codec ctx = .ok (s, i) →
      (∃ extra, i = ctx.imports ++ extra) ∧ (ctx.imports.Nodup → i.Nodup)) ∧
    (∀ (card : Cardinality) (inC outC : Codec) (q : String) (r : QueryType),
      analyzeQuery card inC outC q = .ok r → r.imports.Nodup) ∧
    analyzeQuery MANY (.ScalarCodec "Rng" true) (.ScalarCodec "Rng" true)
        "q" = .ok ⟨"Rng", "Rng[]", MANY, "q", ["Rng"]⟩ ∧
    (["Rng"] : List String).count "Rng" = 1 := by
  refine ⟨fun codec ctx s i h => walk_imports_mono codec ctx s i h, ?_, ?_, ?_⟩
  · intro card inC outC q r h
    simp only [analyzeQuery] at h
    cases hw1 : walkCodec inC ⟨"", true, true, []⟩ with
    | error e => simp [hw1] at h
    | ok p =>
        obtain ⟨a, i1⟩ := p
        simp only [hw1, exceptBind_ok] at h
        cases hw2 : walkCodec outC ⟨"", false, false, i1⟩ with
        | error e => simp [hw2] at h
        | ok q2 =>
            obtain ⟨b, i2⟩ := q2
            simp only [hw2, exceptBind_ok] at h
            cases happ : applyCardinalityToTsType b card with
            | error e => simp [happ] at h
            | ok res =>
                simp [happ] at h
                have h1 := (walk_imports_mono inC _ _ _ hw1).2 (by simp)
                have h2 := (walk_imports_mono outC _ _ _ hw2).2 h1
                rw [← h]
                exact h2
  · simp [analyzeQuery, walkCodec, setAdd, applyCardinalityToTsType]
  · decide

/-- Witness for C6: the scalar walk starting from the empty accumulator
appends `"Rng"` and preserves dedup. -/
theorem claimC6_witness :
    (∃ extra, ["Rng"] = ([] : List String) ++ extra) ∧
    (([] : List String).Nodup → (["Rng"] : List String).Nodup) :=
  claimC6.1 (.ScalarCodec "Rng" true) ⟨"", false, false, []⟩ "Rng" ["Rng"]
    (by simp [walkCodec, setAdd])

end AnalyzeQuery
